import Mathlib

/-!
Verification of the process-pool demo (`utils.py`, `functions.py`).

Modelling conventions (shallow embedding of the Python source):

* A workload adapter (`timed_fun` in the source) is a function
  `Nat → Bool → Except ε (α × τ)`: it receives a task index and the
  `verbose` flag, and either returns a `(value, elapsed_seconds)` pair
  or raises an exception (`Except.error`).  The elapsed-time component
  is an arbitrary type `τ` (specialised to `Int` where an order is
  needed); Python floats are carried as opaque data by the dispatcher,
  which never computes with them.
* Exceptions are modelled with `Except`; the Python `ValueError` raised
  by unpacking `zip(*[])` into two names is the `unpackEmpty`
  constructor of `PoolError`, and an exception raised inside a task is
  the `task` constructor.
* The worker pool only affects scheduling, never the aggregated values,
  so `PoolKind` and `max_workers` are carried as parameters that the
  aggregation logic does not consult — exactly as in the source, where
  `pool_type` and `max_workers` choose the executor backend.  The
  nondeterministic completion order of `concurrent.futures.as_completed`
  is modelled by an explicit `completionOrder : List Nat` parameter;
  theorems about completion-order collection hypothesise that it is a
  permutation of `range n`.
* Wall-clock readings of `time.time()` are modelled by an explicit
  clock `Nat → Int` indexed by read events.  `time.time()` is the
  system wall clock and is not guaranteed monotone, so the model places
  no monotonicity constraint on the readings.
-/

/-- The two executor backends passed as `pool_type` in the source
(`ThreadPoolExecutor` / `ProcessPoolExecutor`). -/
inductive PoolKind : Type
  | thread
  | process
deriving DecidableEq

/-- Errors a dispatcher call can surface to its caller:
`task e` is an exception `e` raised by a task invocation and re-raised by
`task.result()` (or by consuming `pool.map`'s iterator); `unpackEmpty` is
the Python `ValueError` raised by `results, times = zip(*results_times)`
when `results_times` is empty (zero iterables unpack into two names). -/
inductive PoolError (ε : Type) : Type
  | task (e : ε)
  | unpackEmpty
deriving DecidableEq

/-- Collecting task results one by one, in the given order, as the list
comprehension `[task.result() for task in tasks]` does: the first task
whose invocation raised propagates its exception; otherwise the list of
`(result, time)` pairs is produced in collection order. -/
def collectResults (h : Nat → Except ε (α × τ)) : List Nat → Except ε (List (α × τ))
  | [] => Except.ok []
  | i :: rest =>
    match h i with
    | Except.error e => Except.error e
    | Except.ok p =>
      match collectResults h rest with
      | Except.error e => Except.error e
      | Except.ok ps => Except.ok (p :: ps)

/-- `submit_get_results(timed_fun, n, pool_type, as_completed, max_workers, verbose)`
from `utils.py` (the body inside the `@timed` decoration): submits tasks
`0, …, n-1` (each invoking `partial(timed_fun, verbose=verbose)` on its
index), collects `(result, time)` pairs either in submission order
(`as_completed=False`) or in the run's completion order
(`as_completed=True`, modelled by `completionOrder`), and finally
unpacks `zip(*results_times)` into the two parallel batches — raising
`ValueError` (`unpackEmpty`) when `n = 0`. -/
def submit_get_results (timed_fun : Nat → Bool → Except ε (α × τ)) (n : Nat)
    (pool_kind : PoolKind) (as_completed : Bool) (completionOrder : List Nat)
    (max_workers : Option Nat) (verbose : Bool) :
    Except (PoolError ε) (List α × List τ) :=
  let collect := if as_completed then completionOrder else List.range n
  match collectResults (fun i => timed_fun i verbose) collect with
  | Except.error e => Except.error (PoolError.task e)
  | Except.ok rts =>
    match rts with
    | [] => Except.error PoolError.unpackEmpty
    | _ :: _ => Except.ok (rts.map Prod.fst, rts.map Prod.snd)

/-- `map_results(timed_fun, n, pool_type, max_workers, verbose)` from
`utils.py` (the body inside the `@timed` decoration): dispatches
`pool.map(partial(timed_fun, verbose=verbose), range(n))` — whose output
preserves input order, re-raising a task's exception when the iterator
reaches it — then unpacks `zip(*results_times)` into the two parallel
batches, raising `ValueError` (`unpackEmpty`) when `n = 0`. -/
def map_results (timed_fun : Nat → Bool → Except ε (α × τ)) (n : Nat)
    (pool_kind : PoolKind) (max_workers : Option Nat) (verbose : Bool) :
    Except (PoolError ε) (List α × List τ) :=
  match collectResults (fun i => timed_fun i verbose) (List.range n) with
  | Except.error e => Except.error (PoolError.task e)
  | Except.ok rts =>
    match rts with
    | [] => Except.error PoolError.unpackEmpty
    | _ :: _ => Except.ok (rts.map Prod.fst, rts.map Prod.snd)

/-- The `timed` decorator from `utils.py`, applied to a thunk: reads the
wall clock (`time.time()`, modelled as `clock k`), invokes `f`, reads the
clock again, and returns `(result, t1 - t0)`; an exception raised by `f`
propagates unchanged (the subtraction and pairing are never reached). -/
def timed (clock : Nat → Int) (k : Nat) (f : Unit → Except ε α) :
    Except ε (α × Int) :=
  let t0 := clock k
  match f () with
  | Except.error e => Except.error e
  | Except.ok r => Except.ok (r, clock (k + 1) - t0)

/-- The first projection of a successful dispatch: the result batch, if
the call returned one. -/
def resultBatchOf (x : Except (PoolError ε) (List α × List τ)) : Option (List α) :=
  match x with
  | Except.error _ => none
  | Except.ok (rs, _) => some rs

/-- An adapter as `display_results` receives it: the function plus its
`__name__`, which the façade prints before dispatching. -/
structure TimedFun (ε α : Type) : Type where
  name : String
  fn : Nat → Bool → Except ε (α × Int)

/-- Errors surfaced by `display_results`: the `ValueError` raised for an
unrecognized `submit_type`, or a dispatcher failure propagating through
the façade (which has no error handling of its own). -/
inductive DisplayError (ε : Type) : Type
  | valueError (msg : String)
  | dispatch (e : PoolError ε)
deriving DecidableEq

/-- Joins the per-task times with plus signs, as the report line of
`display_results` does. -/
def joinPlus : List Int → String
  | [] => ""
  | [t] => toString t
  | t :: rest => toString t ++ " + " ++ joinPlus rest

/-- `display_results(timed_fun, n, pool_type, submit_type, as_completed, max_workers, verbose)`
from `utils.py`: prints the running adapter's name, selects
`submit_get_results` or `map_results` by string comparison on
`submit_type` — raising `ValueError` for any other value, before any
pool is created or task submitted — and prints the result batch, the
joined task times with their sum, and the total time the `@timed`
decoration measured around the dispatch call.  The printed lines are
returned as a list; Python's `.3g` float formatting is presentation and
is modelled as plain `toString`. -/
def display_results [ToString α] (clock : Nat → Int) (k : Nat)
    (timed_fun : TimedFun ε α) (n : Nat) (pool_kind : PoolKind)
    (submit_type : String) (as_completed : Bool) (completionOrder : List Nat)
    (max_workers : Option Nat) (verbose : Bool) :
    Except (DisplayError ε) (List String) :=
  let l0 := "Running: " ++ timed_fun.name
  if submit_type = "submit" then
    match timed clock k (fun _ =>
        submit_get_results timed_fun.fn n pool_kind as_completed completionOrder
          max_workers verbose) with
    | Except.error e => Except.error (DisplayError.dispatch e)
    | Except.ok ((results, times), total_time) =>
      Except.ok [l0,
        "Results: " ++ toString results,
        "Task times: " ++ joinPlus times ++ " = " ++ toString times.sum,
        "Actual time: " ++ toString total_time]
  else if submit_type = "map" then
    match timed clock k (fun _ =>
        map_results timed_fun.fn n pool_kind max_workers verbose) with
    | Except.error e => Except.error (DisplayError.dispatch e)
    | Except.ok ((results, times), total_time) =>
      Except.ok [l0,
        "Results: " ++ toString results,
        "Task times: " ++ joinPlus times ++ " = " ++ toString times.sum,
        "Actual time: " ++ toString total_time]
  else
    Except.error (DisplayError.valueError
      ("Unrecognized value for submit_type: " ++ submit_type))

/-- The `ZeroDivisionError` that `value // next_guess` raises in
`long_factorize` when the trial-division loop leaves `next_guess = 0`. -/
inductive ZeroDivisionError : Type
  | divByZero
deriving DecidableEq

/-- The trial-division loop of `long_factorize`, with explicit fuel:
`while next_guess > 1 and (value % next_guess): next_guess -= 1`.
Python `%` on ints is floor-mod (`Int.fmod`); its truthiness is
non-zeroness.  Fuel `g.toNat` (supplied by `long_factorize_loop`)
suffices because each iteration requires `1 < g` and decrements `g`, so
the loop runs at most `g.toNat - 1` times. -/
def trialLoopAux (value : Int) : Nat → Int → Int
  | 0, g => g
  | fuel + 1, g =>
    if 1 < g ∧ value.fmod g ≠ 0 then trialLoopAux value fuel (g - 1) else g

/-- The trial-division loop started at `next_guess`, run to its exit
value. -/
def long_factorize_loop (value next_guess : Int) : Int :=
  trialLoopAux value next_guess.toNat next_guess

/-- `long_factorize(offset, base)` from `functions.py` (the body inside
the `@timed` decoration): forms `value = base + offset`, starts trial
division at `next_guess = int(value / 2)` — truncating division toward
zero, `Int.tdiv value 2`; Python computes it by float division, which
agrees with exact halving for `|value| < 2^53` — runs the loop, and
returns `(value, f1, value // f1)` with `//` the Python floor division
`Int.fdiv`, raising `ZeroDivisionError` when the loop left
`next_guess = 0`. -/
def long_factorize (offset : Int) (base : Int := 100000001) :
    Except ZeroDivisionError (Int × Int × Int) :=
  let value := base + offset
  let next_guess := Int.tdiv value 2
  let f1 := long_factorize_loop value next_guess
  if f1 = 0 then Except.error ZeroDivisionError.divByZero
  else Except.ok (value, f1, Int.fdiv value f1)

/-! ## Helper lemmas -/

/-- Collecting from an adapter that never raises yields exactly the list
of its `(value, time)` pairs, in collection order. -/
theorem collectResults_total (g : Nat → α × τ) :
    ∀ l : List Nat,
      collectResults (fun i => (Except.ok (g i) : Except ε (α × τ))) l
        = Except.ok (l.map g)
  | [] => rfl
  | i :: rest => by
    simp [collectResults, collectResults_total (ε := ε) g rest]

/-- If some collected task raised, the whole collection raises. -/
theorem collectResults_error_of_mem (h : Nat → Except ε (α × τ)) {i : Nat} {e : ε} :
    ∀ {l : List Nat}, i ∈ l → h i = Except.error e →
      ∃ e2, collectResults h l = Except.error e2 := by
  intro l
  induction l with
  | nil => intro hm _; cases hm
  | cons j rest ih =>
    intro hm he
    cases hcj : h j with
    | error e2 => exact ⟨e2, by simp [collectResults, hcj]⟩
    | ok p =>
      have hrest : i ∈ rest := by
        rcases List.mem_cons.mp hm with h1 | h1
        · rw [h1] at he; rw [he] at hcj; cases hcj
        · exact h1
      obtain ⟨e2, hr⟩ := ih hrest he
      exact ⟨e2, by simp [collectResults, hcj, hr]⟩

/-- Ordered collection is the special case of completion-order
collection whose order is exactly `range n`. -/
theorem submit_ordered_eq_completion_range (f : Nat → Bool → Except ε (α × τ))
    (n : Nat) (k : PoolKind) (order : List Nat) (mw : Option Nat) (vb : Bool) :
    submit_get_results f n k false order mw vb
      = submit_get_results f n k true (List.range n) mw vb := rfl

/-- Completion-order collection of a never-raising adapter over a
nonempty order list returns exactly the per-index values and times,
sequenced by that list. -/
theorem submit_completion_total (val : Nat → α) (tm : Nat → τ) (n : Nat)
    (k : PoolKind) (l : List Nat) (mw : Option Nat) (vb : Bool) (hl : l ≠ []) :
    submit_get_results (ε := ε) (fun i _ => Except.ok (val i, tm i)) n k true l mw vb
      = Except.ok (l.map val, l.map tm) := by
  cases l with
  | nil => exact absurd rfl hl
  | cons j rest =>
    simp [submit_get_results,
      collectResults_total (ε := ε) (fun i => (val i, tm i)) (j :: rest),
      List.map_map, Function.comp]

/-- If the adapter raises for some index in the collection list, the
whole dispatch raises that task error. -/
theorem submit_completion_error (f : Nat → Bool → Except ε (α × τ)) (n : Nat)
    (k : PoolKind) (l : List Nat) (mw : Option Nat) (vb : Bool) {i : Nat} {e : ε}
    (hi : i ∈ l) (he : f i vb = Except.error e) :
    ∃ e2, submit_get_results f n k true l mw vb
      = Except.error (PoolError.task e2) := by
  obtain ⟨e2, hc⟩ := collectResults_error_of_mem (fun i => f i vb) hi he
  exact ⟨e2, by simp [submit_get_results, hc]⟩

/-- `map_results` computes the same aggregation as ordered submission
over `range n` (helper, used by several claim proofs). -/
theorem map_results_eq_completion_range (f : Nat → Bool → Except ε (α × τ))
    (n : Nat) (k : PoolKind) (mw : Option Nat) (vb : Bool) :
    map_results f n k mw vb
      = submit_get_results f n k true (List.range n) mw vb := rfl

/-! ## Claim theorems -/

/-- C1, counterexample: at `N = 0` the ordered dispatch does not return
the empty batches the claim promises; it raises the `ValueError` from
unpacking `zip(*[])` into two names. -/
theorem submit_get_results_n0_counterexample :
    submit_get_results (ε := Unit) (fun i _ => Except.ok (i * i, (0 : Int))) 0
        PoolKind.process false [] none false = Except.error PoolError.unpackEmpty
      ∧ submit_get_results (ε := Unit) (fun i _ => Except.ok (i * i, (0 : Int))) 0
        PoolKind.process false [] none false ≠ Except.ok ([], []) :=
  ⟨rfl, fun h => Except.noConfusion h⟩

/-- C1, amended to `N ≥ 1`: for every adapter value/time assignment,
both pool kinds, and any `max_workers`, ordered submit-and-collect and
map-and-collect return batches of length exactly `N` with
`result_batch[i]` the adapter's value for index `i`. -/
theorem dispatch_ordered_indexed_results (val : Nat → α) (tm : Nat → τ) (n : Nat)
    (k : PoolKind) (order : List Nat) (mw : Option Nat) (vb : Bool) (h : 1 ≤ n) :
    submit_get_results (ε := ε) (fun i _ => Except.ok (val i, tm i)) n k false order mw vb
        = Except.ok ((List.range n).map val, (List.range n).map tm)
      ∧ map_results (ε := ε) (fun i _ => Except.ok (val i, tm i)) n k mw vb
        = Except.ok ((List.range n).map val, (List.range n).map tm)
      ∧ ((List.range n).map val).length = n
      ∧ ((List.range n).map tm).length = n
      ∧ ∀ i, i < n → ((List.range n).map val)[i]? = some (val i) := by
  have hr : List.range n ≠ [] := by simp [List.range_eq_nil]; omega
  have hs := submit_completion_total (ε := ε) val tm n k (List.range n) mw vb hr
  refine ⟨?_, ?_, by simp, by simp, ?_⟩
  · rw [submit_ordered_eq_completion_range]; exact hs
  · rw [map_results_eq_completion_range]; exact hs
  · intro i hi
    simp [List.getElem?_range hi]

/-- C1 witness: the amended theorem instantiated at `N = 3`. -/
theorem dispatch_ordered_indexed_results_witness :
    submit_get_results (ε := Unit) (fun i _ => Except.ok (i + 10, 2 * i)) 3
        PoolKind.thread false [] none false
        = Except.ok ((List.range 3).map (fun i => i + 10), (List.range 3).map (fun i => 2 * i))
      ∧ map_results (ε := Unit) (fun i _ => Except.ok (i + 10, 2 * i)) 3
        PoolKind.thread none false
        = Except.ok ((List.range 3).map (fun i => i + 10), (List.range 3).map (fun i => 2 * i))
      ∧ ((List.range 3).map (fun i => i + 10)).length = 3
      ∧ ((List.range 3).map (fun i => 2 * i)).length = 3
      ∧ ∀ i, i < 3 → ((List.range 3).map (fun i => i + 10))[i]? = some (i + 10) :=
  dispatch_ordered_indexed_results (fun i => i + 10) (fun i => 2 * i) 3
    PoolKind.thread [] none false (by decide)

/-- C2: at `N = 0`, `results_times` is empty and
`results, times = zip(*results_times)` raises
`ValueError: not enough values to unpack` in all three dispatch
configurations — the code contradicts the spec's boundary contract of
returning empty batches. -/
theorem dispatch_n0_raises :
    submit_get_results (ε := Unit) (fun i _ => Except.ok ((i : Nat), (0 : Int))) 0
        PoolKind.thread false [] none false = Except.error PoolError.unpackEmpty
      ∧ submit_get_results (ε := Unit) (fun i _ => Except.ok ((i : Nat), (0 : Int))) 0
        PoolKind.process true [] none false = Except.error PoolError.unpackEmpty
      ∧ map_results (ε := Unit) (fun i _ => Except.ok ((i : Nat), (0 : Int))) 0
        PoolKind.thread none false = Except.error PoolError.unpackEmpty :=
  ⟨rfl, rfl, rfl⟩

/-- C3: `map_results` is extensionally equal to `submit_get_results`
in ordered mode, for every adapter (including raising ones), every `N`,
both pool kinds, and any `max_workers`. -/
theorem map_results_refines_ordered_submit (f : Nat → Bool → Except ε (α × τ))
    (n : Nat) (k : PoolKind) (order : List Nat) (mw : Option Nat) (vb : Bool) :
    map_results f n k mw vb = submit_get_results f n k false order mw vb := rfl

/-- C4: if the adapter raises for some index below `N`, every dispatch
configuration (ordered submit, completion-order submit, map) surfaces a
task error to the caller instead of returning any batch. -/
theorem dispatch_fails_on_task_error (f : Nat → Bool → Except ε (α × τ)) (n : Nat)
    (k : PoolKind) (order : List Nat) (mw : Option Nat) (vb : Bool)
    (i : Nat) (e : ε)
    (hi : i < n) (he : f i vb = Except.error e) (hperm : order.Perm (List.range n)) :
    (∃ e1, submit_get_results f n k false order mw vb
        = Except.error (PoolError.task e1))
      ∧ (∃ e2, submit_get_results f n k true order mw vb
        = Except.error (PoolError.task e2))
      ∧ (∃ e3, map_results f n k mw vb = Except.error (PoolError.task e3)) := by
  have hmem : i ∈ List.range n := List.mem_range.mpr hi
  have hmem2 : i ∈ order := hperm.mem_iff.mpr hmem
  refine ⟨?_, submit_completion_error f n k order mw vb hmem2 he, ?_⟩
  · rw [submit_ordered_eq_completion_range]
    exact submit_completion_error f n k (List.range n) mw vb hmem he
  · rw [map_results_eq_completion_range]
    exact submit_completion_error f n k (List.range n) mw vb hmem he

/-- C4 witness: an adapter that raises at index 1, dispatched with
`N = 3` and completion order `[2, 1, 0]`. -/
theorem dispatch_fails_on_task_error_witness :
    (∃ e1, submit_get_results
        (fun i _ => if i = 1 then Except.error 0 else Except.ok ((i : Nat), (0 : Int))) 3
        PoolKind.process false [2, 1, 0] none false
        = Except.error (PoolError.task e1))
      ∧ (∃ e2, submit_get_results
        (fun i _ => if i = 1 then Except.error 0 else Except.ok ((i : Nat), (0 : Int))) 3
        PoolKind.process true [2, 1, 0] none false
        = Except.error (PoolError.task e2))
      ∧ (∃ e3, map_results
        (fun i _ => if i = 1 then Except.error (0 : Nat) else Except.ok ((i : Nat), (0 : Int))) 3
        PoolKind.process none false
        = Except.error (PoolError.task e3)) :=
  dispatch_fails_on_task_error
    (fun i _ => if i = 1 then Except.error 0 else Except.ok (i, 0)) 3
    PoolKind.process [2, 1, 0] none false 1 0 (by decide) rfl (by decide)

/-- C5: for any `submit_type` other than `"submit"` and `"map"`,
`display_results` raises the `ValueError` (the spec's
`InvalidConfiguration`) and its outcome is independent of the adapter's
function — the adapter is never invoked and no pool is created, since
the `else` branch raises before touching either dispatcher. -/
theorem display_results_invalid_style [ToString α] (clock : Nat → Int) (k : Nat)
    (nm : String) (fn : Nat → Bool → Except ε (α × Int)) (n : Nat) (pk : PoolKind)
    (st : String) (ac : Bool) (order : List Nat) (mw : Option Nat) (vb : Bool)
    (h1 : st ≠ "submit") (h2 : st ≠ "map") :
    display_results clock k ⟨nm, fn⟩ n pk st ac order mw vb
        = Except.error (DisplayError.valueError
            ("Unrecognized value for submit_type: " ++ st))
      ∧ ∀ fn2 : Nat → Bool → Except ε (α × Int),
          display_results clock k ⟨nm, fn⟩ n pk st ac order mw vb
            = display_results clock k ⟨nm, fn2⟩ n pk st ac order mw vb := by
  refine ⟨?_, fun fn2 => ?_⟩ <;> simp [display_results, h1, h2]

/-- C5 witness: `submit_type = "batch"` with a spy adapter. -/
theorem display_results_invalid_style_witness :
    display_results (fun _ => 0) 0
        ⟨"spy", fun i _ => (Except.ok ((i : Nat), (0 : Int)) : Except Unit (Nat × Int))⟩
        5 PoolKind.thread "batch" false [] none false
        = Except.error (DisplayError.valueError
            ("Unrecognized value for submit_type: " ++ "batch"))
      ∧ ∀ fn2 : Nat → Bool → Except Unit (Nat × Int),
          display_results (fun _ => 0) 0 ⟨"spy", fun i _ => Except.ok (i, 0)⟩
              5 PoolKind.thread "batch" false [] none false
            = display_results (fun _ => 0) 0 ⟨"spy", fn2⟩
              5 PoolKind.thread "batch" false [] none false :=
  display_results_invalid_style (fun _ => 0) 0 "spy" (fun i _ => Except.ok (i, 0))
    5 PoolKind.thread "batch" false [] none false (by decide) (by decide)

/-- C6, counterexample: `timed` reads `time.time()`, the system wall
clock, which may be stepped backwards between the two reads; with
readings 5 then 3 the wrapper returns elapsed `-2 < 0`, impossible for a
measurement taken from a monotonic clock. -/
theorem timed_wall_clock_counterexample :
    timed (fun j => if j = 0 then 5 else 3) 0 (fun _ => (Except.ok 0 : Except Unit Int))
        = Except.ok (0, -2)
      ∧ (-2 : Int) < 0 :=
  ⟨rfl, by decide⟩

/-- C6, amended: `timed f` returns `(f's result, t1 - t0)` where `t0`
and `t1` are the wall-clock readings straddling the invocation of `f`
(`time.time()`, not a monotonic clock — the difference may be negative
if the clock is adjusted); and when `f` raises, `timed f` raises the
identical exception instead of returning a pair. -/
theorem timed_contract (clock : Nat → Int) (k : Nat) (f : Unit → Except ε α) :
    (∀ r, f () = Except.ok r →
        timed clock k f = Except.ok (r, clock (k + 1) - clock k))
      ∧ ∀ e, f () = Except.error e → timed clock k f = Except.error e := by
  constructor
  · intro r hr
    simp [timed, hr]
  · intro e he
    simp [timed, he]

/-- C6 witness: the amended contract at a constant clock, for one
succeeding and one raising callable. -/
theorem timed_contract_witness :
    timed (fun _ => (7 : Int)) 0 (fun _ => (Except.ok 1 : Except Unit Nat))
        = Except.ok (1, 7 - 7)
      ∧ timed (fun _ => (7 : Int)) 0 (fun _ => (Except.error 4 : Except Nat Nat))
        = Except.error 4 :=
  ⟨(timed_contract (fun _ => 7) 0 (fun _ => Except.ok 1)).1 1 rfl,
    (timed_contract (fun _ => 7) 0 (fun _ => Except.error 4)).2 4 rfl⟩

/-- C7: with a completion order that is a permutation of `range n`, the
completion-order result batch is the ordered result batch permuted —
the two batches are equal as multisets though not as sequences. -/
theorem completion_batch_perm_of_ordered (val : Nat → α) (tm : Nat → τ) (n : Nat)
    (k : PoolKind) (order : List Nat) (mw : Option Nat) (vb : Bool)
    (h : 1 ≤ n) (hperm : order.Perm (List.range n)) :
    submit_get_results (ε := ε) (fun i _ => Except.ok (val i, tm i)) n k true order mw vb
        = Except.ok (order.map val, order.map tm)
      ∧ submit_get_results (ε := ε) (fun i _ => Except.ok (val i, tm i)) n k false order mw vb
        = Except.ok ((List.range n).map val, (List.range n).map tm)
      ∧ (order.map val).Perm ((List.range n).map val) := by
  have hr : List.range n ≠ [] := by simp [List.range_eq_nil]; omega
  have ho : order ≠ [] := by
    intro h0
    have hl := hperm.length_eq
    rw [h0] at hl
    simp at hl
    omega
  exact ⟨submit_completion_total val tm n k order mw vb ho,
    by rw [submit_ordered_eq_completion_range]
       exact submit_completion_total val tm n k (List.range n) mw vb hr,
    hperm.map val⟩

/-- C7 witness: `N = 3` with completion order `[2, 0, 1]`. -/
theorem completion_batch_perm_of_ordered_witness :
    submit_get_results (ε := Unit) (fun i _ => Except.ok (i * i, (1 : Int))) 3
        PoolKind.thread true [2, 0, 1] none false
        = Except.ok (([2, 0, 1].map fun i => i * i), [2, 0, 1].map fun _ => (1 : Int))
      ∧ submit_get_results (ε := Unit) (fun i _ => Except.ok (i * i, (1 : Int))) 3
        PoolKind.thread false [2, 0, 1] none false
        = Except.ok (((List.range 3).map fun i => i * i),
            (List.range 3).map fun _ => (1 : Int))
      ∧ ([2, 0, 1].map fun i => i * i).Perm ((List.range 3).map fun i => i * i) :=
  completion_batch_perm_of_ordered (fun i => i * i) (fun _ => 1) 3
    PoolKind.thread [2, 0, 1] none false (by decide) (by decide)

/-- C8: when the adapter reports nonnegative elapsed times (the
interface contract `elapsed_seconds ≥ 0`), every element of the
returned time batch is `≥ 0` in all three modes, and in ordered submit
mode and map mode `time_batch[i]` is exactly the adapter's self-reported
time for index `i`. -/
theorem time_batch_nonneg_and_indexed (val : Nat → α) (tm : Nat → Int) (n : Nat)
    (k : PoolKind) (order : List Nat) (mw : Option Nat) (vb : Bool)
    (htm : ∀ i, 0 ≤ tm i) (h : 1 ≤ n) (hperm : order.Perm (List.range n)) :
    (submit_get_results (ε := ε) (fun i _ => Except.ok (val i, tm i)) n k false order mw vb
        = Except.ok ((List.range n).map val, (List.range n).map tm)
      ∧ map_results (ε := ε) (fun i _ => Except.ok (val i, tm i)) n k mw vb
        = Except.ok ((List.range n).map val, (List.range n).map tm)
      ∧ ∀ i, i < n → ((List.range n).map tm)[i]? = some (tm i))
      ∧ (∀ t ∈ (List.range n).map tm, 0 ≤ t)
      ∧ submit_get_results (ε := ε) (fun i _ => Except.ok (val i, tm i)) n k true order mw vb
        = Except.ok (order.map val, order.map tm)
      ∧ ∀ t ∈ order.map tm, 0 ≤ t := by
  have hr : List.range n ≠ [] := by simp [List.range_eq_nil]; omega
  have ho : order ≠ [] := by
    intro h0
    have hl := hperm.length_eq
    rw [h0] at hl
    simp at hl
    omega
  have hs := submit_completion_total (ε := ε) val tm n k (List.range n) mw vb hr
  refine ⟨⟨?_, ?_, ?_⟩, ?_, submit_completion_total val tm n k order mw vb ho, ?_⟩
  · rw [submit_ordered_eq_completion_range]; exact hs
  · rw [map_results_eq_completion_range]; exact hs
  · intro i hi
    simp [List.getElem?_range hi]
  · intro t ht
    obtain ⟨j, _, rfl⟩ := List.mem_map.mp ht
    exact htm j
  · intro t ht
    obtain ⟨j, _, rfl⟩ := List.mem_map.mp ht
    exact htm j

/-- C8 witness: `N = 2`, times `tm i = i`, completion order `[1, 0]`. -/
theorem time_batch_nonneg_and_indexed_witness :
    (submit_get_results (ε := Unit) (fun i _ => Except.ok (i, Int.ofNat i)) 2
        PoolKind.process false [1, 0] none true
        = Except.ok ((List.range 2).map fun j => j, (List.range 2).map fun j => Int.ofNat j)
      ∧ map_results (ε := Unit) (fun i _ => Except.ok (i, Int.ofNat i)) 2
        PoolKind.process none true
        = Except.ok ((List.range 2).map fun j => j, (List.range 2).map fun j => Int.ofNat j)
      ∧ ∀ i, i < 2 → ((List.range 2).map fun j => Int.ofNat j)[i]? = some (Int.ofNat i))
      ∧ (∀ t ∈ (List.range 2).map fun j => Int.ofNat j, 0 ≤ t)
      ∧ submit_get_results (ε := Unit) (fun i _ => Except.ok (i, Int.ofNat i)) 2
        PoolKind.process true [1, 0] none true
        = Except.ok ([1, 0].map fun j => j, [1, 0].map fun j => Int.ofNat j)
      ∧ ∀ t ∈ [1, 0].map fun j => Int.ofNat j, 0 ≤ t :=
  time_batch_nonneg_and_indexed (fun j => j) (fun j => Int.ofNat j) 2 PoolKind.process
    [1, 0] none true (fun j => Int.ofNat_nonneg j) (by decide) (by decide)

/-- C9, counterexample: a deterministic adapter (value `i` for index
`i`, zero time) dispatched twice in completion-order mode with the same
`N`, pool kind, and `max_workers`, on two runs whose (both valid)
completion orders differ, returns different result batches — the claim
fails for the completion-order collection mode. -/
theorem completion_mode_batch_differs_counterexample :
    ([0, 1] : List Nat).Perm (List.range 2)
      ∧ ([1, 0] : List Nat).Perm (List.range 2)
      ∧ submit_get_results (ε := Unit) (fun i _ => Except.ok ((i : Nat), (0 : Int))) 2
          PoolKind.thread true [0, 1] none false = Except.ok ([0, 1], [0, 0])
      ∧ submit_get_results (ε := Unit) (fun i _ => Except.ok ((i : Nat), (0 : Int))) 2
          PoolKind.thread true [1, 0] none false = Except.ok ([1, 0], [0, 0])
      ∧ ([0, 1] : List Nat) ≠ [1, 0] :=
  ⟨by decide, by decide, rfl, rfl, by decide⟩

/-- C9, amended to the ordered and map collection modes: for an adapter
whose value component depends only on the index, two invocations with
the same `N`, pool kind, `max_workers` and verbosity — differing only
in run-dependent data (self-reported times, completion order of the
other futures) — return the same result batch. -/
theorem ordered_map_results_deterministic (val : Nat → α) (tm1 tm2 : Nat → τ)
    (n : Nat) (k : PoolKind) (o1 o2 : List Nat) (mw : Option Nat) (vb : Bool) :
    resultBatchOf (submit_get_results (ε := ε)
          (fun i _ => Except.ok (val i, tm1 i)) n k false o1 mw vb)
        = resultBatchOf (submit_get_results (ε := ε)
          (fun i _ => Except.ok (val i, tm2 i)) n k false o2 mw vb)
      ∧ resultBatchOf (map_results (ε := ε)
          (fun i _ => Except.ok (val i, tm1 i)) n k mw vb)
        = resultBatchOf (map_results (ε := ε)
          (fun i _ => Except.ok (val i, tm2 i)) n k mw vb) := by
  cases n with
  | zero => exact ⟨rfl, rfl⟩
  | succ m =>
    have hr : List.range (m + 1) ≠ [] := by simp [List.range_eq_nil]
    have h1 := submit_completion_total (ε := ε) val tm1 (m + 1) k (List.range (m + 1)) mw vb hr
    have h2 := submit_completion_total (ε := ε) val tm2 (m + 1) k (List.range (m + 1)) mw vb hr
    constructor
    · rw [submit_ordered_eq_completion_range, submit_ordered_eq_completion_range, h1, h2]
      rfl
    · rw [map_results_eq_completion_range, map_results_eq_completion_range, h1, h2]
      rfl

/-- The trial-division loop, started at any guess `g ≥ 1` with enough
fuel, exits at a positive divisor of `value` (helper for C10): the loop
only stops at `g = 1` (which divides everything) or at a `g` with
`value % g == 0`. -/
theorem trialLoopAux_spec (value : Int) :
    ∀ (fuel : Nat) (g : Int), 1 ≤ g → g.toNat ≤ fuel + 1 →
      1 ≤ trialLoopAux value fuel g ∧ trialLoopAux value fuel g ∣ value := by
  intro fuel
  induction fuel with
  | zero =>
    intro g hg hf
    have hg1 : g = 1 := by omega
    rw [hg1]
    exact ⟨le_refl 1, ⟨value, (one_mul value).symm⟩⟩
  | succ fuel ih =>
    intro g hg hf
    by_cases hcond : 1 < g ∧ value.fmod g ≠ 0
    · rw [trialLoopAux, if_pos hcond]
      exact ih (g - 1) (by omega) (by omega)
    · rw [trialLoopAux, if_neg hcond]
      rcases Classical.em (1 < g) with hgt | hle
      · have hmod : value.fmod g = 0 := by
          by_contra hne
          exact hcond ⟨hgt, hne⟩
        have hdvd : g ∣ value := by
          have hsum := Int.fmod_add_fdiv value g
          rw [hmod, zero_add] at hsum
          exact ⟨value.fdiv g, hsum.symm⟩
        exact ⟨le_of_lt hgt, hdvd⟩
      · have hg1 : g = 1 := by omega
        rw [hg1]
        exact ⟨le_refl 1, ⟨value, (one_mul value).symm⟩⟩

/-- When the trial loop exits at a nonzero guess, `long_factorize`
returns `(value, f1, value // f1)` (helper for C10). -/
theorem long_factorize_run (offset base : Int)
    (h : long_factorize_loop (base + offset) (Int.tdiv (base + offset) 2) ≠ 0) :
    long_factorize offset base
      = Except.ok (base + offset,
          long_factorize_loop (base + offset) (Int.tdiv (base + offset) 2),
          Int.fdiv (base + offset)
            (long_factorize_loop (base + offset) (Int.tdiv (base + offset) 2))) := by
  simp only [long_factorize]
  rw [if_neg h]

/-- C10, counterexample: at `offset = -100000003` (default base, so
`value = -2 ≤ 1`) the division guard does not fail — `next_guess` is
`int(-2 / 2) = -1`, not `0`, and `long_factorize` returns the triple
`(-2, -1, 2)` instead of raising `ZeroDivisionError`. -/
theorem long_factorize_negative_counterexample :
    long_factorize (-100000003) = Except.ok (-2, -1, 2)
      ∧ (100000001 : Int) + -100000003 ≤ 1
      ∧ long_factorize (-100000003) ≠ Except.error ZeroDivisionError.divByZero :=
  ⟨rfl, by decide, fun h => Except.noConfusion h⟩

/-- C10, amended: for `base + offset ≥ 2` the function terminates with
`next_guess ≥ 1` throughout (so `value // next_guess` never divides by
zero) and returns `(value, f1, f2)` with `value = base + offset`,
`f1 ≥ 1` and `f1 * f2 = value`; the division guard fails
(`next_guess` reaches `0`) exactly for `base + offset ∈ {-1, 0, 1}`,
not for all `base + offset ≤ 1`. -/
theorem long_factorize_spec (offset base : Int) :
    (2 ≤ base + offset →
        ∃ f1 f2, long_factorize offset base = Except.ok (base + offset, f1, f2)
          ∧ 1 ≤ f1 ∧ f1 * f2 = base + offset)
      ∧ (base + offset = -1 ∨ base + offset = 0 ∨ base + offset = 1 →
          long_factorize offset base = Except.error ZeroDivisionError.divByZero) := by
  constructor
  · intro h2
    have hng : 1 ≤ Int.tdiv (base + offset) 2 := by
      rw [Int.tdiv_eq_ediv (by omega) (by omega)]
      rw [Int.le_ediv_iff_mul_le (by omega)]
      omega
    obtain ⟨hf1, hdvd⟩ := trialLoopAux_spec (base + offset)
      (Int.tdiv (base + offset) 2).toNat (Int.tdiv (base + offset) 2) hng (by omega)
    have hf1L : 1 ≤ long_factorize_loop (base + offset) (Int.tdiv (base + offset) 2) := hf1
    have hdvdL : long_factorize_loop (base + offset) (Int.tdiv (base + offset) 2)
        ∣ (base + offset) := hdvd
    obtain ⟨c, hc⟩ := hdvdL
    have hne : long_factorize_loop (base + offset) (Int.tdiv (base + offset) 2) ≠ 0 := by
      omega
    have hfd : Int.fdiv (base + offset)
        (long_factorize_loop (base + offset) (Int.tdiv (base + offset) 2)) = c := by
      generalize hL : long_factorize_loop (base + offset) (Int.tdiv (base + offset) 2) = L
        at hc hne ⊢
      rw [hc, Int.mul_fdiv_cancel_left c hne]
    refine ⟨long_factorize_loop (base + offset) (Int.tdiv (base + offset) 2), c,
      ?_, hf1L, hc.symm⟩
    rw [long_factorize_run offset base hne, hfd]
  · intro h1
    rcases h1 with h | h | h <;>
      · unfold long_factorize
        rw [h]
        rfl

/-- C10 witness: `base = 10`: at `offset = 3` (`value = 13`, prime) the
triple `(13, 1, 13)` is produced; at `offset = -9` (`value = 1`) the
division guard fails. -/
theorem long_factorize_spec_witness :
    (∃ f1 f2, long_factorize 3 10 = Except.ok (10 + 3, f1, f2)
        ∧ 1 ≤ f1 ∧ f1 * f2 = 10 + 3)
      ∧ long_factorize (-9) 10 = Except.error ZeroDivisionError.divByZero :=
  ⟨(long_factorize_spec 3 10).1 (by decide),
    (long_factorize_spec (-9) 10).2 (Or.inr (Or.inr (by decide)))⟩

